import Mathlib

/-!
Verification of the news-aggregation application (`src/app.py`).

The Python source is shallowly embedded below: article dictionaries become
the `Article` structure (fields that may be missing or `None` become
`Option String`; Python truthiness of a string field is `truthy`),
the user table becomes a `List User`, the per-browser session becomes a
`Session` structure, and the two stateful operations (`register`, `login`)
become pure functions returning the updated store/session together with an
explicit result value.  External libraries are parameters: `random.shuffle`
is an arbitrary function assumed to permute its input, `hashlib.sha256`
is an arbitrary function `String → String`, and the outbound HTTP call of
`requests.get` is summarised by a `ProviderOutcome` value.
-/

namespace NewsApp

/-- An article-like record, as handed over by the provider.  `url` and
`title` model `a.get("url")` / `a.get("title")` (absent key ↦ `none`);
`payload` stands for all the other provider-supplied fields, which pass
through opaquely. -/
structure Article where
  url : Option String
  title : Option String
  payload : Nat := 0
deriving DecidableEq, Repr

/-- Python truthiness of an optional string: `None` and `""` are falsy. -/
def truthy : Option String → Bool
  | none => false
  | some s => !s.isEmpty

/-- The validity test of `_safe_articles` (src/app.py line 49):
`not url or not title` skips the record, so a record is kept only when
both fields are truthy. -/
def validArticle (a : Article) : Bool :=
  truthy a.url && truthy a.title

/-- The string used as deduplication key: the article's url (the `seen`
set in `_safe_articles` stores the raw `url` value). -/
def urlStr (a : Article) : String :=
  a.url.getD ""

/-- Loop of `_safe_articles` (src/app.py lines 44-54): walk the items,
skip records failing the validity test, skip records whose url is already
in `seen`, otherwise record the url in `seen` and keep the record. -/
def safeArticlesGo : List Article → List String → List Article
  | [], _ => []
  | a :: rest, seen =>
    if validArticle a then
      if seen.contains (urlStr a) then
        safeArticlesGo rest seen
      else
        a :: safeArticlesGo rest (urlStr a :: seen)
    else
      safeArticlesGo rest seen

/-- `_safe_articles` (src/app.py lines 43-55): start with an empty
`cleaned` list and an empty `seen` set. -/
def safeArticles (items : List Article) : List Article :=
  safeArticlesGo items []

/-- `merge_shuffle_limit` (src/app.py lines 83-88): concatenate the lists
in order, shuffle, truncate to `limit` (default 18).  `random.shuffle` is
embedded as the explicit parameter `shuffle`; theorems assume only that it
permutes its argument. -/
def merge_shuffle_limit (shuffle : List Article → List Article)
    (list_of_lists : List (List Article)) (limit : Nat := 18) : List Article :=
  let merged := list_of_lists.foldl (fun acc lst => acc ++ lst) []
  (shuffle merged).take limit

/-- Sample articles used in concrete witnesses: valid records with
distinct urls and titles. -/
def art1 : Article := ⟨some "http://a", some "A", 1⟩

def art2 : Article := ⟨some "http://b", some "B", 2⟩

/-- A record sharing `art1`'s url but otherwise different: used to
exhibit deduplication. -/
def artDup : Article := ⟨some "http://a", some "A again", 3⟩

def art3 : Article := ⟨some "http://c", some "C", 4⟩

def art4 : Article := ⟨some "http://d", some "D", 5⟩

def art5 : Article := ⟨some "http://e", some "E", 6⟩

def art6 : Article := ⟨some "http://f", some "F", 7⟩

/-- A row of the `User` table (src/app.py lines 26-31). -/
structure User where
  id : Nat
  name : String
  email : String
  password_hash : String
  interests : String
deriving DecidableEq, Repr

/-- The per-browser session dictionary: the keys `user_id` and `email`
are the only ones the application uses; an absent key is `none`.  An
anonymous session has both keys absent. -/
structure Session where
  user_id : Option Nat := none
  email : Option String := none
deriving DecidableEq, Repr

/-- Model of Python `str.lower()`: lowercase every character.  (Defined
over the character list so that it evaluates in the kernel.) -/
def toLowerStr (s : String) : String :=
  ⟨s.data.map Char.toLower⟩

/-- Model of Python `str.strip()`: drop leading and trailing
whitespace. -/
def trimStr (s : String) : String :=
  ⟨((s.data.dropWhile Char.isWhitespace).reverse.dropWhile
      Char.isWhitespace).reverse⟩

/-- Model of Python `str.split(",")`, accumulator of the current
fragment held reversed: `"".split(",") = [""]` and separators at the ends
produce empty fragments, exactly as in Python. -/
def splitCommaGo : List Char → List Char → List String
  | [], acc => [⟨acc.reverse⟩]
  | c :: rest, acc =>
    if c = ',' then ⟨acc.reverse⟩ :: splitCommaGo rest []
    else splitCommaGo rest (c :: acc)

/-- Model of Python `str.split(",")`. -/
def splitComma (s : String) : List String :=
  splitCommaGo s.data []

/-- The normalization applied to a submitted email on both registration
and login (src/app.py lines 123 and 138): `.strip().lower()`. -/
def normalizeEmail (s : String) : String :=
  toLowerStr (trimStr s)

/-- Result of a POST to `/login` (src/app.py lines 137-145). -/
inductive LoginResult where
  | redirectHome
  | invalidCredentials
deriving DecidableEq, Repr

/-- Result of a POST to `/register` (src/app.py lines 121-132):
`emailAlreadyRegistered` is the plain-text body
"Email already registered. Try logging in." (no redirect); a successful
registration redirects to the login page. -/
inductive RegisterResult where
  | redirectLogin
  | emailAlreadyRegistered
deriving DecidableEq, Repr

/-- POST branch of `login` (src/app.py lines 137-145).  `hash` embeds
`hash_password` (src/app.py lines 40-41, a SHA-256 hex digest via the
external `hashlib`, kept abstract).  The query
`User.query.filter_by(email=email, password_hash=password).first()` is the
first stored user matching both the normalized email and the hash; on a
match the session keys `user_id` and `email` are set and the user is
redirected home, otherwise the session is untouched and the plain text
"Invalid credentials" is returned. -/
def login (hash : String → String) (users : List User) (sess : Session)
    (email password : String) : Session × LoginResult :=
  let e := normalizeEmail email
  let p := hash password
  match users.find? (fun u => u.email == e && u.password_hash == p) with
  | some u => (⟨some u.id, some u.email⟩, LoginResult.redirectHome)
  | none => (sess, LoginResult.invalidCredentials)

/-- POST branch of `register` (src/app.py lines 121-132): normalize the
submitted fields, reject when `User.query.filter_by(email=email).first()`
finds an existing user with the normalized email, otherwise append a new
`User` row (its id assigned by the database) and redirect to login. -/
def register (hash : String → String) (users : List User) (nextId : Nat)
    (name email password interests : String) : List User × RegisterResult :=
  let nm := trimStr name
  let e := normalizeEmail email
  let p := hash password
  let i := trimStr interests
  if (users.find? (fun u => u.email == e)).isSome then
    (users, RegisterResult.emailAlreadyRegistered)
  else
    (users ++ [⟨nextId, nm, e, p, i⟩], RegisterResult.redirectLogin)

/-- `admin_required` (src/app.py lines 163-166): the gate passes exactly
when `session.get("email")` equals `ADMIN_EMAIL`; since an absent key
yields `None ≠ ADMIN_EMAIL`, anything but a session storing exactly the
admin email aborts with 403.  `true` means the gate passes. -/
def admin_required (adminEmail : String) (sess : Session) : Bool :=
  sess.email == some adminEmail

/-- What a provider call comes down to for the caller: either
`requests.get`/`r.json()` raised (transport error, timeout, unparsable
body), or a parsed JSON object with an optional `status` field and an
optional `articles` field (`data.get("articles", [])` yields `[]` when
the key is absent, and `_safe_articles`'s `items or []` guards a null
value, so both are `Option.getD []` below). -/
inductive ProviderOutcome where
  | exn
  | response (status : Option String) (articles : Option (List Article))
deriving DecidableEq, Repr

/-- `fetch_top_headlines` (src/app.py lines 57-68): an absent or empty
API key short-circuits to `[]`; an exception is caught and `[]` returned;
a response whose `status` is not `"ok"` falls through to `[]`; on
`status == "ok"` the articles pass through `_safe_articles`. -/
def fetch_top_headlines (apiKey : Option String)
    (outcome : ProviderOutcome) : List Article :=
  if !truthy apiKey then []
  else
    match outcome with
    | ProviderOutcome.exn => []
    | ProviderOutcome.response status articles =>
      if status == some "ok" then safeArticles (articles.getD []) else []

/-- `fetch_news_for_topic` (src/app.py lines 70-81): identical error
shape to `fetch_top_headlines`; the topic only parametrizes the outbound
query. -/
def fetch_news_for_topic (apiKey : Option String) (topic : String)
    (outcome : ProviderOutcome) : List Article :=
  if !truthy apiKey then []
  else
    match outcome with
    | ProviderOutcome.exn => []
    | ProviderOutcome.response status articles =>
      if status == some "ok" then safeArticles (articles.getD []) else []

/-- The topic parsing in `home` (src/app.py line 102):
`[t.strip() for t in user.interests.split(",") if t.strip()]`. -/
def parseTopics (interests : String) : List String :=
  ((splitComma interests).map trimStr).filter (fun t => !t.isEmpty)

/-- The branch decision of `home` (src/app.py lines 101-115), up to the
actual fetching: `some topics` means the personalized path is taken with
`used_topics = topics[:5]`; `none` means the top-headlines fallback.  The
guard `if user and user.interests:` tests Python truthiness of the
interests string; an empty parsed topic list is replaced by the default
`["technology", "science", "sports"]` (src/app.py lines 103-104). -/
def homeUsedTopics (user : Option User) : Option (List String) :=
  match user with
  | none => none
  | some u =>
    if !u.interests.isEmpty then
      let topics := parseTopics u.interests
      let topics := if topics.isEmpty then ["technology", "science", "sports"]
        else topics
      some (topics.take 5)
    else none

/-- Sample stored users for concrete witnesses. -/
def user1 : User := ⟨1, "Ann", "a@b.c", "pw", "technology"⟩

/-- A user whose interests string is non-empty but parses to no
topics. -/
def user2 : User := ⟨2, "Bob", "b@c.d", "pw2", ",, "⟩

end NewsApp

namespace NewsApp

theorem safeArticlesGo_sublist (l : List Article) (seen : List String) :
    (safeArticlesGo l seen).Sublist l := by
  induction l generalizing seen with
  | nil => simp [safeArticlesGo]
  | cons a rest ih =>
    simp only [safeArticlesGo]
    by_cases hv : validArticle a = true
    · rw [if_pos hv]
      by_cases hs : seen.contains (urlStr a) = true
      · rw [if_pos hs]; exact (ih seen).cons a
      · rw [if_neg hs]; exact (ih (urlStr a :: seen)).cons₂ a
    · rw [if_neg hv]; exact (ih seen).cons a

theorem safeArticlesGo_all_valid (l : List Article) (seen : List String) :
    (safeArticlesGo l seen).all validArticle = true := by
  induction l generalizing seen with
  | nil => simp [safeArticlesGo]
  | cons a rest ih =>
    simp only [safeArticlesGo]
    by_cases hv : validArticle a = true
    · rw [if_pos hv]
      by_cases hs : seen.contains (urlStr a) = true
      · rw [if_pos hs]; exact ih seen
      · rw [if_neg hs]
        simp only [List.all_cons, hv, Bool.true_and]
        exact ih (urlStr a :: seen)
    · rw [if_neg hv]; exact ih seen

theorem safeArticlesGo_not_mem_seen (l : List Article) (seen : List String)
    (u : String) (hu : u ∈ seen) : u ∉ (safeArticlesGo l seen).map urlStr := by
  induction l generalizing seen with
  | nil => simp [safeArticlesGo]
  | cons a rest ih =>
    simp only [safeArticlesGo]
    by_cases hv : validArticle a = true
    · rw [if_pos hv]
      by_cases hs : seen.contains (urlStr a) = true
      · rw [if_pos hs]; exact ih seen hu
      · rw [if_neg hs]
        simp only [List.map_cons, List.mem_cons, not_or]
        refine ⟨fun h => ?_, ih (urlStr a :: seen) (List.mem_cons_of_mem _ hu)⟩
        exact hs (by simpa [h] using hu)
    · rw [if_neg hv]; exact ih seen hu

theorem safeArticlesGo_nodup_urls (l : List Article) (seen : List String) :
    ((safeArticlesGo l seen).map urlStr).Nodup := by
  induction l generalizing seen with
  | nil => simp [safeArticlesGo]
  | cons a rest ih =>
    simp only [safeArticlesGo]
    by_cases hv : validArticle a = true
    · rw [if_pos hv]
      by_cases hs : seen.contains (urlStr a) = true
      · rw [if_pos hs]; exact ih seen
      · rw [if_neg hs]
        simp only [List.map_cons, List.nodup_cons]
        exact ⟨safeArticlesGo_not_mem_seen rest (urlStr a :: seen) (urlStr a)
          (List.mem_cons_self _ _), ih (urlStr a :: seen)⟩
    · rw [if_neg hv]; exact ih seen

theorem safeArticlesGo_find? (l : List Article) (seen : List String)
    (u : String) (hu : u ∉ seen) :
    (safeArticlesGo l seen).find? (fun a => urlStr a == u)
      = l.find? (fun a => validArticle a && urlStr a == u) := by
  induction l generalizing seen with
  | nil => simp [safeArticlesGo]
  | cons a rest ih =>
    simp only [safeArticlesGo]
    by_cases hv : validArticle a = true
    · rw [if_pos hv]
      by_cases hs : seen.contains (urlStr a) = true
      · rw [if_pos hs]
        have hmem : urlStr a ∈ seen := by simpa using hs
        have hne : (urlStr a == u) = false := by
          rw [beq_eq_false_iff_ne]
          intro h; exact hu (h ▸ hmem)
        simp only [List.find?_cons, hne, hv, Bool.true_and]
        exact ih seen hu
      · rw [if_neg hs]
        by_cases he : (urlStr a == u) = true
        · simp only [List.find?_cons, he, hv, Bool.true_and]
        · have he' : (urlStr a == u) = false := by simpa using he
          simp only [List.find?_cons, he', hv, Bool.true_and]
          refine ih (urlStr a :: seen) ?_
          simp only [List.mem_cons, not_or]
          refine ⟨fun h => ?_, hu⟩
          rw [h] at he'
          simp at he'
    · rw [if_neg hv]
      have hv' : validArticle a = false := by simpa using hv
      simp only [List.find?_cons, hv', Bool.false_and]
      exact ih seen hu

end NewsApp

namespace NewsApp

theorem safeArticlesGo_eq_self (l : List Article) (seen : List String)
    (hv : l.all validArticle = true) (hn : (l.map urlStr).Nodup)
    (hd : ∀ u ∈ l.map urlStr, u ∉ seen) :
    safeArticlesGo l seen = l := by
  induction l generalizing seen with
  | nil => simp [safeArticlesGo]
  | cons a rest ih =>
    simp only [List.all_cons, Bool.and_eq_true] at hv
    simp only [List.map_cons, List.nodup_cons] at hn
    simp only [safeArticlesGo]
    rw [if_pos hv.1]
    have hs : ¬ (seen.contains (urlStr a) = true) := by
      simpa using hd (urlStr a) (by simp)
    rw [if_neg hs]
    congr 1
    refine ih (urlStr a :: seen) hv.2 hn.2 (fun u hu => ?_)
    simp only [List.mem_cons, not_or]
    exact ⟨fun h => hn.1 (h ▸ hu),
      hd u (by simp only [List.map_cons, List.mem_cons]; exact Or.inr hu)⟩

theorem foldl_append_eq_flatten (ls : List (List Article)) (acc : List Article) :
    ls.foldl (fun a b => a ++ b) acc = acc ++ ls.flatten := by
  induction ls generalizing acc with
  | nil => simp
  | cons h t ih => simp [ih]

/-- C1: For every input list of article-like records, the Article Sanitizer
returns a list that preserves input order (the output is a subsequence of
the input), contains only records with both a non-empty URL and a
non-empty title, and contains no two records with the same URL, keeping
the first occurrence of each URL (the output record found for a url `u` is
exactly the first valid input record carrying `u`). -/
theorem C1_sanitizer_correct (l : List Article) :
    (safeArticles l).Sublist l ∧
    (safeArticles l).all validArticle = true ∧
    ((safeArticles l).map urlStr).Nodup ∧
    ∀ u : String,
      (safeArticles l).find? (fun a => urlStr a == u)
        = l.find? (fun a => validArticle a && urlStr a == u) :=
  ⟨safeArticlesGo_sublist l [], safeArticlesGo_all_valid l [],
   safeArticlesGo_nodup_urls l [],
   fun u => safeArticlesGo_find? l [] u (List.not_mem_nil u)⟩

/-- C8: The Article Sanitizer is idempotent: sanitizing the output of the
sanitizer returns it unchanged, and more generally any list all of whose
records are valid and whose urls are pairwise distinct is returned
unchanged. -/
theorem C8_sanitizer_idempotent :
    (∀ l : List Article, safeArticles (safeArticles l) = safeArticles l) ∧
    (∀ l : List Article, l.all validArticle = true → (l.map urlStr).Nodup →
      safeArticles l = l) := by
  constructor
  · intro l
    exact safeArticlesGo_eq_self (safeArticles l) [] (safeArticlesGo_all_valid l [])
      (safeArticlesGo_nodup_urls l []) (by simp)
  · intro l h1 h2
    exact safeArticlesGo_eq_self l [] h1 h2 (by simp)

/-- Witness for C8 on a concrete already-sanitized list. -/
theorem C8_witness : safeArticles [art1, art2] = [art1, art2] :=
  C8_sanitizer_idempotent.2 [art1, art2] (by decide) (by decide)

/-- C2: For every permuting shuffle, every sequence of input lists and
every limit, the Feed Merger's output has length at most the limit and at
most the total input length, and every output element occurs in some input
list; and no de-duplication across input lists is performed: an article
occurring once in each of two input lists occurs twice in the output
(whenever the limit, e.g. the default 18, accommodates it). -/
theorem C2_merge_shuffle_limit_correct :
    (∀ (shuffle : List Article → List Article),
      (∀ l, (shuffle l).Perm l) →
      ∀ (ls : List (List Article)) (limit : Nat),
        (merge_shuffle_limit shuffle ls limit).length ≤ limit ∧
        (merge_shuffle_limit shuffle ls limit).length ≤ (ls.map List.length).sum ∧
        ∀ a ∈ merge_shuffle_limit shuffle ls limit, ∃ l ∈ ls, a ∈ l) ∧
    (∀ (shuffle : List Article → List Article),
      (∀ l, (shuffle l).Perm l) →
      (merge_shuffle_limit shuffle [[art1], [art1]] 18).count art1 = 2) := by
  constructor
  · intro shuffle hperm ls limit
    have hmerged : ls.foldl (fun a b => a ++ b) [] = ls.flatten :=
      foldl_append_eq_flatten ls []
    refine ⟨?_, ?_, ?_⟩
    · simp [merge_shuffle_limit]
    · calc (merge_shuffle_limit shuffle ls limit).length
          ≤ (shuffle (ls.foldl (fun a b => a ++ b) [])).length := by
            simp [merge_shuffle_limit]
        _ = ls.flatten.length := by
            rw [(hperm _).length_eq, hmerged]
        _ = (ls.map List.length).sum := List.length_flatten ls
    · intro a ha
      have h1 : a ∈ shuffle (ls.foldl (fun a b => a ++ b) []) :=
        List.mem_of_mem_take (by simpa [merge_shuffle_limit] using ha)
      have h2 : a ∈ ls.flatten := by
        rw [← hmerged]
        exact ((hperm _).mem_iff).mp h1
      exact List.mem_flatten.mp h2
  · intro shuffle hperm
    have h : (shuffle [art1, art1]).Perm [art1, art1] := hperm [art1, art1]
    have htake : (shuffle [art1, art1]).take 18 = shuffle [art1, art1] :=
      List.take_of_length_le (by rw [h.length_eq]; simp)
    have hfold :
        List.foldl (fun (a b : List Article) => a ++ b) [] [[art1], [art1]]
          = [art1, art1] := rfl
    have hcount : (shuffle [art1, art1]).count art1 = 2 := by
      rw [h.count_eq art1]; rfl
    simp only [merge_shuffle_limit, hfold, htake]
    exact hcount

/-- Witness for C2 with the identity permutation and concrete inputs. -/
theorem C2_witness :
    ((merge_shuffle_limit id [[art1], [art2]] 18).length ≤ 18 ∧
      (merge_shuffle_limit id [[art1], [art2]] 18).length
        ≤ ([[art1], [art2]].map List.length).sum ∧
      ∀ a ∈ merge_shuffle_limit id [[art1], [art2]] 18,
        ∃ l ∈ [[art1], [art2]], a ∈ l) ∧
    (merge_shuffle_limit id [[art1], [art1]] 18).count art1 = 2 :=
  ⟨C2_merge_shuffle_limit_correct.1 id (fun l => List.Perm.refl l) [[art1], [art2]] 18,
   C2_merge_shuffle_limit_correct.2 id (fun l => List.Perm.refl l)⟩

/-- C3: For a store with distinct (registration-enforced) emails, login
succeeds iff some stored user has the normalized submitted email and the
hash of the submitted password; on success the session is set to that
user's id and email (Authenticated); otherwise the session is unchanged
and invalid-credentials is returned. -/
theorem C3_login_correct (hash : String → String) (users : List User)
    (sess : Session) (email password : String)
    (hnodup : (users.map User.email).Nodup) :
    ((login hash users sess email password).2 = LoginResult.redirectHome ↔
      ∃ u ∈ users, u.email = normalizeEmail email ∧
        u.password_hash = hash password) ∧
    (∀ u ∈ users, u.email = normalizeEmail email →
      u.password_hash = hash password →
      login hash users sess email password
        = (⟨some u.id, some u.email⟩, LoginResult.redirectHome)) ∧
    ((¬ ∃ u ∈ users, u.email = normalizeEmail email ∧
        u.password_hash = hash password) →
      login hash users sess email password
        = (sess, LoginResult.invalidCredentials)) := by
  have hP : ∀ u : User,
      ((u.email == normalizeEmail email
          && u.password_hash == hash password) = true)
        ↔ (u.email = normalizeEmail email ∧ u.password_hash = hash password) := by
    intro u
    simp [Bool.and_eq_true, beq_iff_eq]
  rcases hfind : users.find?
      (fun u => u.email == normalizeEmail email
        && u.password_hash == hash password) with _ | v
  · have hlogin : login hash users sess email password
        = (sess, LoginResult.invalidCredentials) := by
      simp only [login]
      rw [hfind]
    have hno : ¬ ∃ u ∈ users, u.email = normalizeEmail email ∧
        u.password_hash = hash password := by
      rintro ⟨u, hu, h1, h2⟩
      exact (List.find?_eq_none.mp hfind u hu) ((hP u).mpr ⟨h1, h2⟩)
    refine ⟨?_, ?_, fun _ => hlogin⟩
    · rw [hlogin]
      exact ⟨fun h => absurd h (by simp), fun h => absurd h hno⟩
    · intro u hu h1 h2
      exact absurd ⟨u, hu, h1, h2⟩ hno
  · have hfp := List.find?_some hfind
    have hv := (hP v).mp hfp
    have hvmem := List.mem_of_find?_eq_some hfind
    have hlogin : login hash users sess email password
        = (⟨some v.id, some v.email⟩, LoginResult.redirectHome) := by
      simp only [login]
      rw [hfind]
    refine ⟨?_, ?_, ?_⟩
    · rw [hlogin]
      exact ⟨fun _ => ⟨v, hvmem, hv⟩, fun _ => rfl⟩
    · intro u hu h1 h2
      have huv : v = u :=
        List.inj_on_of_nodup_map hnodup hvmem hu (by rw [hv.1, h1])
      rw [hlogin, huv]
    · intro h
      exact absurd ⟨v, hvmem, hv⟩ h

/-- Witness for C3: the stored user logs in with a sloppily-cased,
padded email and the right password, and the session becomes
Authenticated with their id and email. -/
theorem C3_witness :
    login (fun s => s) [user1] ⟨none, none⟩ " A@B.c " "pw"
      = (⟨some 1, some "a@b.c"⟩, LoginResult.redirectHome) :=
  (C3_login_correct (fun s => s) [user1] ⟨none, none⟩ " A@B.c " "pw"
    (by decide)).2.1 user1 (by decide) (by decide) (by decide)

theorem register_of_isSome (hash : String → String) (l : List User)
    (nextId : Nat) (name email password interests : String)
    (h : (l.find? (fun u => u.email == normalizeEmail email)).isSome = true) :
    register hash l nextId name email password interests
      = (l, RegisterResult.emailAlreadyRegistered) := by
  simp only [register]
  rw [if_pos h]

theorem register_of_not_found (hash : String → String) (l : List User)
    (nextId : Nat) (name email password interests : String)
    (h : (l.find? (fun u => u.email == normalizeEmail email)).isSome = false) :
    register hash l nextId name email password interests
      = (l ++ [⟨nextId, trimStr name, normalizeEmail email, hash password,
          trimStr interests⟩], RegisterResult.redirectLogin) := by
  simp only [register]
  rw [if_neg (by simp [h])]

/-- C4: Registration creates a new user iff no stored user has the
normalized submitted email; on a duplicate the store is unchanged and the
plain-text duplicate rejection is returned (no redirect); and registering
a second email with the same normalization right after always fails. -/
theorem C4_register_correct (hash : String → String) (users : List User)
    (nextId : Nat) (name email password interests : String) :
    ((register hash users nextId name email password interests).2
        = RegisterResult.redirectLogin ↔
      ¬ ∃ u ∈ users, u.email = normalizeEmail email) ∧
    ((∃ u ∈ users, u.email = normalizeEmail email) →
      register hash users nextId name email password interests
        = (users, RegisterResult.emailAlreadyRegistered)) ∧
    ((¬ ∃ u ∈ users, u.email = normalizeEmail email) →
      register hash users nextId name email password interests
        = (users ++ [⟨nextId, trimStr name, normalizeEmail email,
            hash password, trimStr interests⟩], RegisterResult.redirectLogin)) ∧
    (∀ (nextId2 : Nat) (name2 email2 password2 interests2 : String),
      normalizeEmail email2 = normalizeEmail email →
      (register hash
          (register hash users nextId name email password interests).1
          nextId2 name2 email2 password2 interests2).2
        = RegisterResult.emailAlreadyRegistered) := by
  have hPex : ∀ (l : List User) (e : String),
      ((l.find? (fun u => u.email == e)).isSome = true)
        ↔ ∃ u ∈ l, u.email = e := by
    intro l e
    rw [List.find?_isSome]
    simp [beq_iff_eq]
  by_cases hex : ∃ u ∈ users, u.email = normalizeEmail email
  · have hsome : (users.find?
        (fun u => u.email == normalizeEmail email)).isSome = true :=
      (hPex users (normalizeEmail email)).mpr hex
    have hreg := register_of_isSome hash users nextId name email password
      interests hsome
    refine ⟨?_, fun _ => hreg, fun h => absurd hex h, ?_⟩
    · rw [hreg]
      exact ⟨fun h => absurd h (by simp), fun h => absurd hex h⟩
    · intro nextId2 name2 email2 password2 interests2 he2
      rw [hreg]
      have h2 : (users.find?
          (fun u => u.email == normalizeEmail email2)).isSome = true := by
        refine (hPex users (normalizeEmail email2)).mpr ?_
        rw [he2]
        exact hex
      exact congrArg Prod.snd (register_of_isSome hash users nextId2
        name2 email2 password2 interests2 h2)
  · have hnone : (users.find?
        (fun u => u.email == normalizeEmail email)).isSome = false := by
      rw [← Bool.not_eq_true]
      intro h
      exact hex ((hPex users (normalizeEmail email)).mp h)
    have hreg := register_of_not_found hash users nextId name email password
      interests hnone
    refine ⟨?_, fun h => absurd h hex, fun _ => hreg, ?_⟩
    · rw [hreg]
      exact ⟨fun _ => hex, fun _ => rfl⟩
    · intro nextId2 name2 email2 password2 interests2 he2
      rw [hreg]
      have hmem : (⟨nextId, trimStr name, normalizeEmail email, hash password,
          trimStr interests⟩ : User) ∈ users ++ [⟨nextId, trimStr name,
          normalizeEmail email, hash password, trimStr interests⟩] := by simp
      have h2 := (hPex (users ++ [⟨nextId, trimStr name, normalizeEmail email,
          hash password, trimStr interests⟩]) (normalizeEmail email2)).mpr
        ⟨_, hmem, he2.symm⟩
      exact congrArg Prod.snd (register_of_isSome hash
        (users ++ [⟨nextId, trimStr name, normalizeEmail email,
          hash password, trimStr interests⟩]) nextId2
        name2 email2 password2 interests2 h2)

/-- Witness for C4: registering a fresh email succeeds and appends the
user; registering it again (differently cased) fails with the plain-text
duplicate rejection. -/
theorem C4_witness :
    register (fun s => s) [] 1 "Ann" " A@B.c " "pw" "technology"
      = ([⟨1, "Ann", "a@b.c", "pw", "technology"⟩],
         RegisterResult.redirectLogin) ∧
    (register (fun s => s)
        (register (fun s => s) [] 1 "Ann" " A@B.c " "pw" "technology").1
        2 "Ann" "a@b.C" "pw" "technology").2
      = RegisterResult.emailAlreadyRegistered :=
  ⟨(C4_register_correct (fun s => s) [] 1 "Ann" " A@B.c " "pw"
      "technology").2.2.1 (by rintro ⟨u, hu, -⟩; exact (List.not_mem_nil u) hu),
   (C4_register_correct (fun s => s) [] 1 "Ann" " A@B.c " "pw"
      "technology").2.2.2 2 "Ann" "a@b.C" "pw" "technology" (by decide)⟩

/-- C7: The admin gate passes exactly when the session's stored email is
string-equal to the configured admin email; a session with no stored
email (anonymous) is always refused. -/
theorem C7_admin_gate (adminEmail : String) (sess : Session) :
    (admin_required adminEmail sess = true ↔ sess.email = some adminEmail) ∧
    (sess.email = none → admin_required adminEmail sess = false) := by
  constructor
  · simp [admin_required]
  · intro h
    simp [admin_required, h]

/-- Witness for C7: the anonymous session is refused. -/
theorem C7_witness :
    admin_required "admin@example.com" ⟨none, none⟩ = false :=
  (C7_admin_gate "admin@example.com" ⟨none, none⟩).2 rfl

/-- C5: With an absent (or empty, hence falsy) API key, on an exception,
or on a response whose status is not `"ok"`, both adapters return the
empty list.  (Both adapters are total functions, so no outcome raises to
the caller.) -/
theorem C5_adapter_error_handling (apiKey : Option String) (topic : String)
    (status : Option String) (articles : Option (List Article)) :
    (truthy apiKey = false →
      ∀ o : ProviderOutcome, fetch_top_headlines apiKey o = [] ∧
        fetch_news_for_topic apiKey topic o = []) ∧
    fetch_top_headlines apiKey ProviderOutcome.exn = [] ∧
    fetch_news_for_topic apiKey topic ProviderOutcome.exn = [] ∧
    (status ≠ some "ok" →
      fetch_top_headlines apiKey (ProviderOutcome.response status articles) = [] ∧
      fetch_news_for_topic apiKey topic
        (ProviderOutcome.response status articles) = []) := by
  refine ⟨?_, ?_, ?_, ?_⟩
  · intro hk o
    constructor <;> simp [fetch_top_headlines, fetch_news_for_topic, hk]
  · rcases h : truthy apiKey <;>
      simp [fetch_top_headlines, h]
  · rcases h : truthy apiKey <;>
      simp [fetch_news_for_topic, h]
  · intro hs
    have hs' : (status == some "ok") = false := by
      rw [beq_eq_false_iff_ne]
      exact hs
    rcases h : truthy apiKey <;>
      constructor <;>
        simp [fetch_top_headlines, fetch_news_for_topic, h, hs']

/-- Witness for C5: a missing key, an exception, and an error status each
yield the empty list. -/
theorem C5_witness :
    fetch_top_headlines none ProviderOutcome.exn = [] ∧
    fetch_news_for_topic (some "key") "sports"
      (ProviderOutcome.response (some "error") (some [art1])) = [] :=
  ⟨((C5_adapter_error_handling none "t" none none).1 rfl
      ProviderOutcome.exn).1,
   ((C5_adapter_error_handling (some "key") "sports" (some "error")
      (some [art1])).2.2.2 (by decide)).2⟩

/-- C6 counterexample: the claim says an `"ok"` response's articles array
is returned verbatim with no sanitization, but on a payload with a
duplicated url the adapter drops the second record. -/
theorem C6_counterexample :
    fetch_top_headlines (some "key")
        (ProviderOutcome.response (some "ok") (some [art1, artDup]))
      ≠ [art1, artDup] := by
  decide

/-- C6 amended: on a successful (`status == "ok"`) response with a truthy
API key, both adapters return `_safe_articles` applied to the provider's
articles array (with a missing/null array read as `[]`) — sanitized, not
verbatim. -/
theorem C6_amended_sanitized_on_success (apiKey : Option String)
    (topic : String) (articles : Option (List Article))
    (hk : truthy apiKey = true) :
    fetch_top_headlines apiKey (ProviderOutcome.response (some "ok") articles)
      = safeArticles (articles.getD []) ∧
    fetch_news_for_topic apiKey topic
        (ProviderOutcome.response (some "ok") articles)
      = safeArticles (articles.getD []) := by
  constructor <;> simp [fetch_top_headlines, fetch_news_for_topic, hk]

/-- Witness for the amended C6 on a concrete duplicated payload. -/
theorem C6_witness :
    fetch_top_headlines (some "key")
        (ProviderOutcome.response (some "ok") (some [art1, artDup]))
      = safeArticles [art1, artDup] :=
  (C6_amended_sanitized_on_success (some "key") "t" (some [art1, artDup])
    rfl).1

/-- C9: For two topic lists of 3 valid articles each with 6 pairwise
distinct urls, each sanitized list has length 3, and merging them with
limit 18 yields a list of length exactly 6 in which each of the 6 urls
occurs. -/
theorem C9_two_topics_scenario (shuffle : List Article → List Article)
    (hperm : ∀ l, (shuffle l).Perm l) (l1 l2 : List Article)
    (h1 : l1.length = 3) (h2 : l2.length = 3)
    (hv : (l1 ++ l2).all validArticle = true)
    (hn : ((l1 ++ l2).map urlStr).Nodup) :
    (safeArticles l1).length = 3 ∧ (safeArticles l2).length = 3 ∧
    (merge_shuffle_limit shuffle [safeArticles l1, safeArticles l2] 18).length
      = 6 ∧
    ∀ u ∈ (l1 ++ l2).map urlStr,
      u ∈ (merge_shuffle_limit shuffle
        [safeArticles l1, safeArticles l2] 18).map urlStr := by
  simp only [List.all_append, Bool.and_eq_true] at hv
  simp only [List.map_append] at hn
  have s1 : safeArticles l1 = l1 :=
    safeArticlesGo_eq_self l1 [] hv.1 hn.of_append_left (by simp)
  have s2 : safeArticles l2 = l2 :=
    safeArticlesGo_eq_self l2 [] hv.2 hn.of_append_right (by simp)
  have hfold : List.foldl (fun (a b : List Article) => a ++ b) [] [l1, l2]
      = l1 ++ l2 := by
    simp
  have hlen : (shuffle (l1 ++ l2)).length = 6 := by
    rw [(hperm _).length_eq, List.length_append, h1, h2]
  have hms : merge_shuffle_limit shuffle [safeArticles l1, safeArticles l2] 18
      = shuffle (l1 ++ l2) := by
    rw [s1, s2]
    simp only [merge_shuffle_limit, hfold]
    exact List.take_of_length_le (by rw [hlen]; omega)
  refine ⟨by rw [s1, h1], by rw [s2, h2], by rw [hms, hlen], ?_⟩
  intro u hu
  rw [hms]
  exact (((hperm (l1 ++ l2)).map urlStr).mem_iff).mpr hu

/-- Witness for C9 with two concrete 3-article lists and the identity
permutation. -/
theorem C9_witness :
    (safeArticles [art1, art2, art3]).length = 3 ∧
    (safeArticles [art4, art5, art6]).length = 3 ∧
    (merge_shuffle_limit id
      [safeArticles [art1, art2, art3], safeArticles [art4, art5, art6]]
      18).length = 6 ∧
    ∀ u ∈ ([art1, art2, art3] ++ [art4, art5, art6]).map urlStr,
      u ∈ (merge_shuffle_limit id
        [safeArticles [art1, art2, art3], safeArticles [art4, art5, art6]]
        18).map urlStr :=
  C9_two_topics_scenario id (fun l => List.Perm.refl l)
    [art1, art2, art3] [art4, art5, art6] rfl rfl (by decide) (by decide)

/-- C10: An authenticated user whose interests string is non-empty but
parses to no topics gets the personalized path with the default topic
list, not the top-headlines fallback. -/
theorem C10_home_default_topics (u : User)
    (hne : u.interests ≠ "") (hempty : parseTopics u.interests = []) :
    homeUsedTopics (some u) = some ["technology", "science", "sports"] := by
  have h1 : u.interests.isEmpty = false := by
    rw [← Bool.not_eq_true]
    intro h
    exact hne ((String.isEmpty_iff u.interests).mp h)
  simp [homeUsedTopics, h1, hempty]

/-- Witness for C10: interests `",, "` yields the default topics. -/
theorem C10_witness :
    homeUsedTopics (some user2) = some ["technology", "science", "sports"] :=
  C10_home_default_topics user2 (by decide) (by decide)

end NewsApp
